import Mathlib

/-!
Verification of the schema-detection core (`header_detector.py`) of the
critical-minerals-data-tools repository.

The development shallowly embeds the detector: Python string builtins used by
the code (`str.strip`, `str.split`, `str.count`, `str.upper`, `float(...)`)
are modelled on `List Char`/`String`, the stdlib `csv.reader` is modelled as
the CPython `_csv` state machine for the default dialect, and each method of
`HeaderDetector` becomes a Lean function over those models.  HTTP responses
and the external spreadsheet library are passed in as explicit data
(status code, body, and a workbook-loading function).
-/

/-- Python's whitespace test for `str`: exactly the code points for which
`str.isspace()` holds and which `str.strip()` removes — the ASCII range
0x09-0x0d, the information separators 0x1c-0x1f, space, NEL, NBSP, and the
Unicode space separators. -/
def pyIsSpace (c : Char) : Bool :=
  c = ' ' || ('\x09' ≤ c && c ≤ '\x0d') || ('\x1c' ≤ c && c ≤ '\x1f') ||
  c = '\x85' || c = '\xa0' || c = '\u1680' || ('\u2000' ≤ c && c ≤ '\u200a') ||
  c = '\u2028' || c = '\u2029' || c = '\u202f' || c = '\u205f' || c = '\u3000'

/-- The whitespace set `float()` strips before parsing: the `str` whitespace
set without the information separators 0x1c-0x1f, which `float()` rejects. -/
def floatIsSpace (c : Char) : Bool :=
  c = ' ' || ('\x09' ≤ c && c ≤ '\x0d') ||
  c = '\x85' || c = '\xa0' || c = '\u1680' || ('\u2000' ≤ c && c ≤ '\u200a') ||
  c = '\u2028' || c = '\u2029' || c = '\u202f' || c = '\u205f' || c = '\u3000'

/-- Model of Python `str.strip()` on a character list: drop whitespace from
both ends. -/
def pyStrip (l : List Char) : List Char :=
  ((l.dropWhile pyIsSpace).reverse.dropWhile pyIsSpace).reverse

/-- Model of Python `s.split("\x5cn")`: split on every newline.  Like Python's
`str.split`, the result is never empty (splitting the empty string gives one
empty piece). -/
def splitNl : List Char → List (List Char)
  | [] => [[]]
  | c :: rest =>
    if c = '\n' then [] :: splitNl rest
    else
      match splitNl rest with
      | [] => [[c]]
      | h :: t => (c :: h) :: t

/-- ASCII lower-casing of one character, as `str.lower()` acts on ASCII. -/
def lowerAscii (c : Char) : Char :=
  if 'A' ≤ c ∧ c ≤ 'Z' then Char.ofNat (c.toNat + 32) else c

/-- ASCII upper-casing of one character, as `str.upper()` acts on ASCII. -/
def pyUpperChar (c : Char) : Char :=
  if 'a' ≤ c ∧ c ≤ 'z' then Char.ofNat (c.toNat - 32) else c

/-- Model of Python `str.upper()` (ASCII range). -/
def pyUpper (s : String) : String :=
  String.mk (s.toList.map pyUpperChar)

/-- UTF-8 byte length of a character list, modelling `len(s.encode("utf-8"))`. -/
def utf8Len (l : List Char) : Nat :=
  (l.map Char.utf8Size).sum

/-- Model of `v.replace(",", "")`: remove every comma. -/
def stripCommas (l : List Char) : List Char :=
  l.filter (fun c => c ≠ ',')

/-- Check that every underscore in a numeric literal is directly surrounded by
digits, the PEP 515 rule enforced by Python's `float()`. -/
def underscoreStep (prev : Char) : List Char → Bool
  | [] => prev ≠ '_'
  | c :: rest =>
    ((c ≠ '_' || prev.isDigit) && (prev ≠ '_' || c.isDigit)) && underscoreStep c rest

/-- Underscore placement test for the whole literal. -/
def underscoresOk : List Char → Bool
  | [] => true
  | c :: rest => c ≠ '_' && underscoreStep c rest

/-- Mantissa shape accepted by `float()`: digits and at most one dot, with at
least one digit. -/
def mantOk (m : List Char) : Bool :=
  m.all (fun c => c.isDigit || c = '.') && m.count '.' ≤ 1 && m.any Char.isDigit

/-- Strip one optional leading sign. -/
def dropSign : List Char → List Char
  | c :: rest => if c = '+' || c = '-' then rest else c :: rest
  | [] => []

/-- Exponent shape accepted by `float()`: optional sign then one or more
digits. -/
def expOk (x : List Char) : Bool :=
  let x' := dropSign x
  x' ≠ [] && x'.all Char.isDigit

/-- Digit/dot/exponent shape of a numeric literal with underscores already
removed. -/
def numShape (t : List Char) : Bool :=
  match t.findIdx? (fun c => c = 'e' || c = 'E') with
  | none => mantOk t
  | some k => mantOk (t.take k) && expOk (t.drop (k + 1))

/-- Model of Python `float(v)` succeeding: strip the whitespace `float()`
accepts, allow a sign, accept `inf`/`infinity`/`nan` (case-insensitive) or a
decimal literal with PEP 515 underscores. -/
def pyFloatChars (s : List Char) : Bool :=
  let t0 := ((s.dropWhile floatIsSpace).reverse.dropWhile floatIsSpace).reverse
  let t := dropSign t0
  let lt := t.map lowerAscii
  lt = "inf".toList || lt = "infinity".toList || lt = "nan".toList ||
    (underscoresOk t && numShape (t.filter (fun c => c ≠ '_')))

/-- Test `"." in v or "e" in v.lower()` used to distinguish float from
integer samples. -/
def dotOrE (l : List Char) : Bool :=
  l.contains '.' || (l.map lowerAscii).contains 'e'

/-- The csv module's default field size limit, `csv.field_size_limit()`. -/
def fieldLimit : Nat := 131072

/-- The error the reader raises when a field would exceed the limit. -/
def csvLimitErr : String := "field larger than field limit (131072)"

/-- States of the CPython `_csv` reader automaton (default dialect: double
quote, no escape character, non-strict). -/
inductive CState where
  | startRecord : CState
  | startField : List String → CState
  | inField : List String → List Char → CState
  | inQuoted : List String → List Char → CState
  | quoteInQuoted : List String → List Char → CState
  | eatCRNL : List String → CState
deriving DecidableEq

/-- The `_csv` reader automaton, processing the raw character stream fed
line-by-line from `io.StringIO`.  A record ends at a newline outside quotes;
a blank line yields an empty record; a carriage return ends the record and
any further non-newline character on the same line is the stdlib's
"new-line character seen in unquoted field" error.  Appending to a field
whose length has reached `fieldLimit` is the stdlib's field-limit error;
the same check on an EMPTY field (the first character of a field, length 0)
can never fire and carries no guard here. -/
def runCsv (d : Char) : CState → List Char → Except String (List (List String))
  | .startRecord, [] => .ok []
  | .startRecord, ch :: rest =>
    if ch = '\n' then (fun rs => [] :: rs) <$> runCsv d .startRecord rest
    else if ch = '\r' then runCsv d (.eatCRNL []) rest
    else if ch = '"' then runCsv d (.inQuoted [] []) rest
    else if ch = d then runCsv d (.startField [""]) rest
    else runCsv d (.inField [] [ch]) rest
  | .startField fs, [] => .ok [fs ++ [""]]
  | .startField fs, ch :: rest =>
    if ch = '\n' then (fun rs => (fs ++ [""]) :: rs) <$> runCsv d .startRecord rest
    else if ch = '\r' then runCsv d (.eatCRNL (fs ++ [""])) rest
    else if ch = '"' then runCsv d (.inQuoted fs []) rest
    else if ch = d then runCsv d (.startField (fs ++ [""])) rest
    else runCsv d (.inField fs [ch]) rest
  | .inField fs f, [] => .ok [fs ++ [String.mk f]]
  | .inField fs f, ch :: rest =>
    if ch = '\n' then (fun rs => (fs ++ [String.mk f]) :: rs) <$> runCsv d .startRecord rest
    else if ch = '\r' then runCsv d (.eatCRNL (fs ++ [String.mk f])) rest
    else if ch = d then runCsv d (.startField (fs ++ [String.mk f])) rest
    else if f.length ≥ fieldLimit then .error csvLimitErr
    else runCsv d (.inField fs (f ++ [ch])) rest
  | .inQuoted fs f, [] => .ok [fs ++ [String.mk f]]
  | .inQuoted fs f, ch :: rest =>
    if ch = '"' then runCsv d (.quoteInQuoted fs f) rest
    else if f.length ≥ fieldLimit then .error csvLimitErr
    else runCsv d (.inQuoted fs (f ++ [ch])) rest
  | .quoteInQuoted fs f, [] => .ok [fs ++ [String.mk f]]
  | .quoteInQuoted fs f, ch :: rest =>
    if ch = '"' then
      if f.length ≥ fieldLimit then .error csvLimitErr
      else runCsv d (.inQuoted fs (f ++ ['"'])) rest
    else if ch = d then runCsv d (.startField (fs ++ [String.mk f])) rest
    else if ch = '\n' then
      (fun rs => (fs ++ [String.mk f]) :: rs) <$> runCsv d .startRecord rest
    else if ch = '\r' then runCsv d (.eatCRNL (fs ++ [String.mk f])) rest
    else if f.length ≥ fieldLimit then .error csvLimitErr
    else runCsv d (.inField fs (f ++ [ch])) rest
  | .eatCRNL r, [] => .ok [r]
  | .eatCRNL r, ch :: rest =>
    if ch = '\n' then (fun rs => r :: rs) <$> runCsv d .startRecord rest
    else if ch = '\r' then runCsv d (.eatCRNL r) rest
    else .error "new-line character seen in unquoted field - do you need to open the file in universal-newline mode?"

/-- Model of `list(csv.reader(io.StringIO(content), delimiter=d))`. -/
def pyCsvParse (d : Char) (content : List Char) : Except String (List (List String)) :=
  runCsv d .startRecord content

/-- `HeaderDetector._detect_delimiter`: count each candidate delimiter in the
first line; `max(counts, key=counts.get)` keeps the earliest key on ties;
fall back to comma when every count is zero. -/
def detectDelimiter (line : List Char) : Char :=
  let cnt : Char → Nat := fun d => line.count d
  let best := ['\t', ';', '|'].foldl (fun b d => if cnt d > cnt b then d else b) ','
  let maxCount := Nat.max (Nat.max (Nat.max (cnt ',') (cnt '\t')) (cnt ';')) (cnt '|')
  if maxCount > 0 then best else ','

/-- The delimiter choice as the specification words it: the first candidate in
the fixed order comma, tab, semicolon, pipe achieving the maximum count, with
comma as the default when every count is zero. -/
def specDelimiterChoice (line : List Char) : Char :=
  let a := line.count ','
  let b := line.count '\t'
  let c := line.count ';'
  let d := line.count '|'
  let m := Nat.max (Nat.max (Nat.max a b) c) d
  if m = 0 then ','
  else if a = m then ','
  else if b = m then '\t'
  else if c = m then ';'
  else '|'

/-- Result of `HeaderDetector._infer_type`: the type string plus the optional
metadata entries the code attaches. -/
structure TypeInfo where
  type : String
  max_length : Option Nat := none
  precision : Option String := none
deriving DecidableEq, Repr

/-- The boolean literal set of `_infer_type`. -/
def boolSet : List String :=
  ["true", "false", "yes", "no", "1", "0", "t", "f", "y", "n"]

/-- `HeaderDetector._infer_type`: numeric test (strip, drop thousands commas,
try `float`), then date/datetime test on the raw values, then boolean test,
else string with maximum length. -/
def inferType (values : List String) : TypeInfo :=
  if values = [] then { type := "unknown" }
  else
    let prepped := values.map (fun v => stripCommas (pyStrip v.toList))
    let numericCount := (prepped.filter (fun v => pyFloatChars v)).length
    let floatCount := (prepped.filter (fun v => pyFloatChars v && dotOrE v)).length
    if numericCount = values.length then
      if floatCount > 0 then { type := "float", precision := some "double" }
      else { type := "integer" }
    else if values.all (fun v => v.toList.contains '-' || v.toList.contains '/') then
      if values.any (fun v => v.toList.contains ':') then { type := "datetime" }
      else { type := "date" }
    else if values.all (fun v => boolSet.contains (String.mk (pyStrip (v.toList.map lowerAscii)))) then
      { type := "boolean" }
    else
      { type := "string", max_length := some (values.foldl (fun m v => Nat.max m v.length) 0) }

/-- One entry of the `column_types` list built by
`HeaderDetector._detect_column_types`.  Keys absent from the Python dict are
`none`. -/
structure ColInfo where
  name : String
  type : String
  nullable : Option Bool := none
  sample_values : Option (List String) := none
  max_length : Option Nat := none
  precision : Option String := none
deriving DecidableEq, Repr

/-- `HeaderDetector._detect_column_types`: with no sample rows every column is
`unknown`; otherwise each column collects `row[i]` (empty when the row is
short), filters blank values, infers a type and records nullability and up to
three sample values. -/
def detectColumnTypes (headers : List String) (sample_rows : List (List String)) :
    List ColInfo :=
  if sample_rows = [] then headers.map (fun h => { name := h, type := "unknown" })
  else
    headers.enum.map (fun ih =>
      let i := ih.1
      let h := ih.2
      let raw := sample_rows.map (fun row => row.getD i "")
      let values := raw.filter (fun v => pyStrip v.toList ≠ [])
      let t := inferType values
      { name := h, type := t.type,
        nullable := some (raw.any (fun v => pyStrip v.toList = [])),
        sample_values := some (values.take 3),
        max_length := t.max_length, precision := t.precision })

/-- Observable outcome of the CSV path (`_parse_csv_content` /
`detect_csv_headers`): either one of the failure dicts or the success dict. -/
inductive CsvOutcome where
  | failure (error : String) (resource_id : String)
  | ok (resource_id : String) (partial_download : Bool) (bytes_fetched : Nat)
      (delimiter : Char) (column_count : Nat) (headers : List String)
      (column_types : List ColInfo) (sample_rows : List (List String))
      (rows_sampled : Nat)
deriving DecidableEq, Repr

/-- The `success` key of a CSV-path result dict. -/
def CsvOutcome.success : CsvOutcome → Bool
  | .failure _ _ => false
  | .ok _ _ _ _ _ _ _ _ _ => true

/-- The `error` key of a CSV-path result dict, when present. -/
def CsvOutcome.errorMsg : CsvOutcome → Option String
  | .failure e _ => some e
  | .ok _ _ _ _ _ _ _ _ _ => none

/-- The `headers` key of a success dict (empty for failures). -/
def CsvOutcome.headersOut : CsvOutcome → List String
  | .failure _ _ => []
  | .ok _ _ _ _ _ h _ _ _ => h

/-- The `delimiter` key of a success dict, when present. -/
def CsvOutcome.delimiterOut : CsvOutcome → Option Char
  | .failure _ _ => none
  | .ok _ _ _ d _ _ _ _ _ => some d

/-- The per-column `type` strings of a success dict. -/
def CsvOutcome.typesOut : CsvOutcome → List String
  | .failure _ _ => []
  | .ok _ _ _ _ _ _ ct _ _ => ct.map (fun c => c.type)

/-- The `sample_rows` key of a success dict. -/
def CsvOutcome.sampleRowsOut : CsvOutcome → List (List String)
  | .failure _ _ => []
  | .ok _ _ _ _ _ _ _ sr _ => sr

/-- The `partial_download` key of a success dict, when present. -/
def CsvOutcome.partialOut : CsvOutcome → Option Bool
  | .failure _ _ => none
  | .ok _ pd _ _ _ _ _ _ _ => some pd

/-- `HeaderDetector._parse_csv_content`, translated line by line: strip and
split the text to find the first line, auto-detect the delimiter when none is
supplied, run the csv reader on the original text, fail on zero rows, and
otherwise build the success dict (first row as headers, rows 1 to 5 as
samples). -/
def parseCsvContent (content : String) (resource_id : String)
    (delimiter : Option Char) (partial_download : Bool) : CsvOutcome :=
  let cs := content.toList
  let lines := splitNl (pyStrip cs)
  if lines = [] then .failure "Empty content" resource_id
  else
    let d := match delimiter with
      | some d => d
      | none => detectDelimiter (lines.headD [])
    match pyCsvParse d cs with
    | .error e => .failure ("CSV parse error: " ++ e) resource_id
    | .ok rows =>
      if rows = [] then .failure "No rows parsed" resource_id
      else
        let headers := rows.headD []
        let sample_rows := if rows.length > 1 then (rows.drop 1).take 5 else []
        let cts := detectColumnTypes headers sample_rows
        .ok resource_id partial_download (utf8Len cs) d headers.length headers cts
          sample_rows sample_rows.length

/-- The Range-fetch handling of `detect_csv_headers`: 206 keeps the body with
the partial flag set; 200 truncates the decoded text to the 8192-character
budget and sets the flag exactly when the original text was longer; any other
status is the HTTP failure. -/
def csvFetchDecision (status : Nat) (text : String) : Except String (String × Bool) :=
  if status = 206 then .ok (text, true)
  else if status = 200 then
    .ok (String.mk (text.toList.take 8192), decide (text.toList.length > 8192))
  else .error ("HTTP " ++ toString status)

/-- `HeaderDetector.detect_csv_headers` given the upstream response: fetch
decision followed by `_parse_csv_content`. -/
def detectCsvHeaders (resource_id : String) (delimiter : Option Char)
    (status : Nat) (text : String) : CsvOutcome :=
  match csvFetchDecision status text with
  | .error e => .failure e resource_id
  | .ok (content, pd) => parseCsvContent content resource_id delimiter pd

/-- A workbook as the spreadsheet path observes it through `openpyxl`: sheets
with rows of cells; a cell is `none` when Python would see a falsy value
(rendered as the empty string). -/
abbrev Workbook := List (String × List (List (Option String)))

/-- `str(c) if c else ""` applied to one cell. -/
def cellStr : Option String → String
  | none => ""
  | some s => s

/-- Per-sheet data collected by `detect_xlsx_headers`. -/
structure XSheet where
  headers : List String
  column_count : Nat
  sample_rows : List (List String)
deriving DecidableEq, Repr

/-- Observable outcome of the spreadsheet path: HTTP failure dict, the
parse-failure dict (which also reports bytes fetched and a suggestion), or
the success dict.  No variant carries a partial-download flag: the code never
sets one on this path. -/
inductive XlsxOutcome where
  | httpFailure (error : String) (resource_id : String)
  | parseFailure (error : String) (resource_id : String) (bytes_fetched : Nat)
      (suggestion : String)
  | ok (resource_id : String) (format : String) (bytes_fetched : Nat)
      (sheets : List (String × XSheet)) (sheet_names : List String)
deriving DecidableEq, Repr

/-- The `success` key of a spreadsheet-path result dict. -/
def XlsxOutcome.success : XlsxOutcome → Bool
  | .httpFailure _ _ => false
  | .parseFailure _ _ _ _ => false
  | .ok _ _ _ _ _ => true

/-- The Range-fetch handling of `detect_xlsx_headers`: both 200 and 206 keep
the body exactly as received (no truncation to the 65536-byte budget); other
statuses fail. -/
def xlsxFetchDecision (status : Nat) (body : List Nat) : Except String (List Nat) :=
  if status = 200 ∨ status = 206 then .ok body
  else .error ("HTTP " ++ toString status)

/-- Build one sheet entry from its first six rows. -/
def mkSheet (rows : List (List (Option String))) : XSheet :=
  let headers := (rows.headD []).map cellStr
  { headers := headers, column_count := headers.length,
    sample_rows := ((rows.drop 1).take 5).map (fun r => r.map cellStr) }

/-- The parse half of `detect_xlsx_headers`: an `openpyxl` failure becomes the
parse-failure dict with the explanatory message, the byte count and the
full-download suggestion; on success each non-empty sheet contributes its
headers and sample rows. -/
def detectXlsxFromParse (resource_id : String) (body : List Nat)
    (parsed : Except String Workbook) : XlsxOutcome :=
  match parsed with
  | .error e =>
    .parseFailure ("Excel parse error (may need full file): " ++ e) resource_id
      body.length "Excel files often require full download for reliable parsing"
  | .ok wb =>
    let sheets := wb.foldl (fun acc sheet =>
      let rows := sheet.2.take 6
      if rows = [] then acc else acc ++ [(sheet.1, mkSheet rows)]) []
    .ok resource_id "XLSX" body.length sheets (sheets.map (fun s => s.1))

/-- `HeaderDetector.detect_xlsx_headers` given the upstream response and the
workbook loader. -/
def detectXlsxHeaders (resource_id : String) (status : Nat) (body : List Nat)
    (loadWorkbook : List Nat → Except String Workbook) : XlsxOutcome :=
  match xlsxFetchDecision status body with
  | .error e => .httpFailure e resource_id
  | .ok content => detectXlsxFromParse resource_id content (loadWorkbook content)

/-- Result of the dispatcher `detect_headers`: the CSV-path result, the
spreadsheet-path result, or the unsupported-format failure dict. -/
inductive DispatchOutcome where
  | fromCsv (r : CsvOutcome)
  | fromXlsx (r : XlsxOutcome)
  | unsupported (error : String) (resource_id : String)
deriving DecidableEq, Repr

/-- `HeaderDetector.detect_headers`, with the outcome each parse path would
produce passed in explicitly: upper-case the format (absent means empty), run
the CSV path for "CSV" or empty format, return its result unless an
auto-detect CSV attempt failed, then run the spreadsheet path for
"XLSX"/"XLS"/"XLSM" or empty format, and otherwise fail as unsupported. -/
def detectHeaders (resource_id : String) (fmt : Option String)
    (csvResult : CsvOutcome) (xlsxResult : XlsxOutcome) : DispatchOutcome :=
  let f := pyUpper (fmt.getD "")
  if f = "CSV" ∨ f = "" then
    if csvResult.success ∨ f = "CSV" then .fromCsv csvResult
    else if (f = "XLSX" ∨ f = "XLS" ∨ f = "XLSM") ∨ f = "" then .fromXlsx xlsxResult
    else .unsupported ("Unsupported format: " ++ f) resource_id
  else if (f = "XLSX" ∨ f = "XLS" ∨ f = "XLSM") ∨ f = "" then .fromXlsx xlsxResult
  else .unsupported ("Unsupported format: " ++ f) resource_id

/-- Boolean test that a character is not a newline. -/
def notNl (a : Char) : Bool := a ≠ '\n'

/-- The end-to-end CSV content of the specification scenario. -/
def claim1Input : String := "name,year,qty\nLithium,2023,500\nCobalt,2022,300.5\n"

/-! ### Helper lemmas -/

/-- `Char.ofNat` round-trips on valid code points. -/
theorem charOfNat_toNat (m : Nat) (h : Nat.isValidChar m) : (Char.ofNat m).toNat = m := by
  unfold Char.ofNat
  rw [dif_pos h]
  unfold Char.ofNatAux
  simp [Char.toNat, UInt32.toNat, BitVec.toNat_ofNatLt]

/-- ASCII upper-casing of a character is idempotent. -/
theorem pyUpperChar_idem (c : Char) : pyUpperChar (pyUpperChar c) = pyUpperChar c := by
  unfold pyUpperChar
  split_ifs with h1 h2
  · exfalso
    obtain ⟨ha, hz⟩ := h1
    have h97 : 97 ≤ c.toNat := ha
    have h122 : c.toNat ≤ 122 := hz
    have hv : Nat.isValidChar (c.toNat - 32) := by left; omega
    obtain ⟨ha2, _⟩ := h2
    have h97b : 97 ≤ (Char.ofNat (c.toNat - 32)).toNat := ha2
    rw [charOfNat_toNat _ hv] at h97b
    omega
  · rfl
  · rfl

/-- Python `str.upper()` is idempotent. -/
theorem pyUpper_idem (s : String) : pyUpper (pyUpper s) = pyUpper s := by
  unfold pyUpper
  have h : (String.mk (s.toList.map pyUpperChar)).toList = s.toList.map pyUpperChar := rfl
  rw [h, List.map_map]
  congr 1
  exact List.map_congr_left (fun c _ => pyUpperChar_idem c)

/-- Splitting on newlines never yields the empty list, the reason the
"Empty content" branch of `_parse_csv_content` cannot fire. -/
theorem splitNl_ne_nil (l : List Char) : splitNl l ≠ [] := by
  cases l with
  | nil => simp [splitNl]
  | cons c rest =>
    simp only [splitNl]
    split
    · simp
    · split <;> simp

/-- A string extended on the right of a 17-character prefix is never the
14-character string "No rows parsed". -/
theorem csvErrNe (e : String) : "CSV parse error: " ++ e ≠ "No rows parsed" := by
  intro h
  have hlen := congrArg String.length h
  rw [String.length_append] at hlen
  have h1 : ("CSV parse error: " : String).length = 17 := by decide
  have h2 : ("No rows parsed" : String).length = 14 := by decide
  omega

/-- Nor is it ever the 13-character string "Empty content". -/
theorem csvErrNeEmpty (e : String) : "CSV parse error: " ++ e ≠ "Empty content" := by
  intro h
  have hlen := congrArg String.length h
  rw [String.length_append] at hlen
  have h1 : ("CSV parse error: " : String).length = 17 := by decide
  have h2 : ("Empty content" : String).length = 13 := by decide
  omega

/-! ### Claim theorems -/

/-- Claim C1: on the fully fetched scenario content, the CSV path succeeds
with delimiter comma, headers name/year/qty, inferred column types
string/integer/float, exactly two sample rows and no partial-download flag. -/
theorem claim1_end_to_end :
    (parseCsvContent claim1Input "r1" none false).success = true ∧
    (parseCsvContent claim1Input "r1" none false).delimiterOut = some ',' ∧
    (parseCsvContent claim1Input "r1" none false).headersOut = ["name", "year", "qty"] ∧
    (parseCsvContent claim1Input "r1" none false).typesOut = ["string", "integer", "float"] ∧
    (parseCsvContent claim1Input "r1" none false).sampleRowsOut.length = 2 ∧
    (parseCsvContent claim1Input "r1" none false).partialOut = some false := by
  decide

/-- Claim C2, counterexample: content consisting of a single newline parses to
one blank record, so the CSV path reports success with an empty header list,
refuting the invariant that a success result always has at least one
header. -/
theorem claim2_counterexample :
    (parseCsvContent "\n" "r2" none false).success = true ∧
    (parseCsvContent "\n" "r2" none false).headersOut = [] := by
  decide

/-- Claim C6, counterexample: the explicit format "TSV" is rejected as
unsupported by the dispatcher — it is not dispatched to any parse path, no
matter what the fetch paths would have returned. -/
theorem claim6_counterexample :
    detectHeaders "r" (some "TSV") (CsvOutcome.failure "boom" "r")
      (XlsxOutcome.httpFailure "boom" "r") = .unsupported "Unsupported format: TSV" "r" ∧
    detectHeaders "r" (some "TSV") (CsvOutcome.ok "r" false 0 ',' 0 [] [] [] 0)
      (XlsxOutcome.ok "r" "XLSX" 0 [] []) = .unsupported "Unsupported format: TSV" "r" := by
  decide

/-- Claim C6 as amended: the dispatcher fails with the unsupported-format
message exactly when the upper-cased explicit format is outside the set
accepted by the code — empty, CSV, XLSX, XLS, XLSM — and in that case the
result does not depend on what either fetch path would return. -/
theorem claim6_amended (fmt rid : String) (c : CsvOutcome) (x : XlsxOutcome) :
    (detectHeaders rid (some fmt) c x =
        .unsupported ("Unsupported format: " ++ pyUpper fmt) rid ↔
      pyUpper fmt ∉ (["", "CSV", "XLSX", "XLS", "XLSM"] : List String)) ∧
    (pyUpper fmt ∉ (["", "CSV", "XLSX", "XLS", "XLSM"] : List String) →
      ∀ c' x', detectHeaders rid (some fmt) c' x' = detectHeaders rid (some fmt) c x) := by
  have hmemIff : pyUpper fmt ∉ (["", "CSV", "XLSX", "XLS", "XLSM"] : List String) ↔
      (pyUpper fmt ≠ "" ∧ pyUpper fmt ≠ "CSV" ∧ pyUpper fmt ≠ "XLSX" ∧
        pyUpper fmt ≠ "XLS" ∧ pyUpper fmt ≠ "XLSM") := by
    simp [not_or]
  constructor
  · constructor
    · intro h
      rw [hmemIff]
      simp only [detectHeaders, Option.getD] at h
      split_ifs at h with h1 h2 h3 h4 <;>
        first
          | exact DispatchOutcome.noConfusion h
          | tauto
    · intro h
      rw [hmemIff] at h
      obtain ⟨h0, h1, h2, h3, h4⟩ := h
      simp only [detectHeaders, Option.getD]
      rw [if_neg (by tauto), if_neg (by tauto)]
  · intro h c' x'
    rw [hmemIff] at h
    obtain ⟨h0, h1, h2, h3, h4⟩ := h
    have key : ∀ (cc : CsvOutcome) (xx : XlsxOutcome),
        detectHeaders rid (some fmt) cc xx =
          .unsupported ("Unsupported format: " ++ pyUpper fmt) rid := by
      intro cc xx
      simp only [detectHeaders, Option.getD]
      rw [if_neg (by tauto), if_neg (by tauto)]
    rw [key, key]

/-- Witness for the amended C6 at the concrete unsupported format "PDF". -/
theorem claim6_amended_witness :
    detectHeaders "w6" (some "PDF") (CsvOutcome.failure "e" "w6")
      (XlsxOutcome.httpFailure "e" "w6") =
      .unsupported ("Unsupported format: " ++ pyUpper "PDF") "w6" :=
  (claim6_amended "PDF" "w6" (CsvOutcome.failure "e" "w6")
    (XlsxOutcome.httpFailure "e" "w6")).1.mpr (by decide)

/-- Claim C10: dispatch is case-insensitive — any explicit format behaves
like its upper-cased form — and an absent format behaves like the empty
string. -/
theorem claim10_case_insensitive (rid f : String) (c : CsvOutcome) (x : XlsxOutcome) :
    detectHeaders rid (some f) c x = detectHeaders rid (some (pyUpper f)) c x ∧
    detectHeaders rid none c x = detectHeaders rid (some "") c x := by
  constructor
  · simp only [detectHeaders, Option.getD]
    rw [pyUpper_idem]
  · rfl

/-- Claim C5, counterexample: on the spreadsheet path a full-content 200
response longer than the 65536-byte budget is passed through unchanged — the
body is not truncated to the budget, and the spreadsheet result type carries
no partial-download flag at all. -/
theorem claim5_counterexample :
    xlsxFetchDecision 200 (List.replicate 65537 0) = .ok (List.replicate 65537 0) ∧
    (List.replicate 65537 0).length = 65537 := by
  exact ⟨rfl, List.length_replicate 65537 0⟩

/-- Claim C5 as amended: only the CSV path truncates a 200 body to its budget
and flags partiality exactly when the decoded text exceeded 8192 characters
(206 keeps the body with the flag set); the spreadsheet path hands the 200 or
206 body to the workbook parser unchanged. -/
theorem claim5_amended (rid : String) (d : Option Char) (text : String)
    (body : List Nat) (lw : List Nat → Except String Workbook) :
    detectCsvHeaders rid d 200 text =
      parseCsvContent (String.mk (text.toList.take 8192)) rid d
        (decide (text.toList.length > 8192)) ∧
    detectCsvHeaders rid d 206 text = parseCsvContent text rid d true ∧
    detectXlsxHeaders rid 200 body lw = detectXlsxFromParse rid body (lw body) ∧
    detectXlsxHeaders rid 206 body lw = detectXlsxFromParse rid body (lw body) := by
  refine ⟨rfl, rfl, rfl, rfl⟩

/-- Claim C7: evaluation of the CSV path at the inputs on which it diverges
from the specified error taxonomy.  Empty content produces "No rows parsed"
rather than "Empty content", whitespace-only content succeeds instead of
failing, and no input at all can produce the "Empty content" message because
splitting a string on newlines never yields an empty list. -/
theorem claim7_empty_content_dead :
    parseCsvContent "" "r7" none false = CsvOutcome.failure "No rows parsed" "r7" ∧
    (parseCsvContent " \n" "r7" none false).success = true ∧
    (∀ (content rid : String) (d : Option Char) (pd : Bool),
      (parseCsvContent content rid d pd).errorMsg ≠ some "Empty content") := by
  refine ⟨by decide, by decide, ?_⟩
  intro content rid d pd
  simp only [parseCsvContent]
  rw [if_neg (splitNl_ne_nil _)]
  split
  · intro hEq
    simp only [CsvOutcome.errorMsg, Option.some.injEq] at hEq
    exact csvErrNeEmpty _ hEq
  · split
    · intro hEq
      simp only [CsvOutcome.errorMsg, Option.some.injEq] at hEq
      exact absurd hEq (by decide)
    · simp [CsvOutcome.errorMsg]

/-- Claim C8: whenever the workbook loader rejects the fetched bytes, the
spreadsheet path returns the parse-failure dict as data: success is false,
the message is the non-empty explanatory text, the suggestion recommends a
full download, and the byte count of the fetched body is still reported. -/
theorem claim8_graceful_failure (rid : String) (body : List Nat)
    (lw : List Nat → Except String Workbook) (e : String)
    (h : lw body = .error e) :
    detectXlsxHeaders rid 200 body lw =
      .parseFailure ("Excel parse error (may need full file): " ++ e) rid
        body.length "Excel files often require full download for reliable parsing" ∧
    (detectXlsxHeaders rid 200 body lw).success = false ∧
    ("Excel parse error (may need full file): " ++ e).length > 0 := by
  have hstep : detectXlsxHeaders rid 200 body lw =
      detectXlsxFromParse rid body (lw body) := by
    simp [detectXlsxHeaders, xlsxFetchDecision]
  rw [hstep, h]
  refine ⟨rfl, rfl, ?_⟩
  rw [String.length_append]
  have h1 : ("Excel parse error (may need full file): " : String).length = 40 := by decide
  omega

/-- Witness for C8 on a concrete three-byte buffer and a loader that fails
the way a truncated zip archive makes openpyxl fail. -/
theorem claim8_graceful_failure_witness :
    detectXlsxHeaders "w8" 200 [80, 75, 3]
      (fun _ => Except.error "File is not a zip file") =
      XlsxOutcome.parseFailure
        ("Excel parse error (may need full file): " ++ "File is not a zip file") "w8"
        3 "Excel files often require full download for reliable parsing" :=
  (claim8_graceful_failure "w8" [80, 75, 3]
    (fun _ => Except.error "File is not a zip file") "File is not a zip file" rfl).1

set_option maxHeartbeats 1000000 in
/-- Claim C3: the implemented delimiter detection agrees everywhere with the
specification's description — the first candidate among comma, tab,
semicolon, pipe attaining the maximal count in the first line, comma when
every count is zero. -/
theorem claim3_delimiter_rule (line : List Char) :
    detectDelimiter line = specDelimiterChoice line := by
  unfold detectDelimiter specDelimiterChoice
  simp only [List.foldl, Nat.max_def]
  split_ifs <;> first | rfl | omega

/-- Claim C4, counterexample: the sample values "1-1" and "1:1-" are
non-empty, fail the numeric test, all contain a dash, and only one of them
contains a colon — yet the code infers "datetime", where the claim requires
the type to stay "date" unless every value contains a colon. -/
theorem claim4_counterexample :
    (["1-1", "1:1-"] : List String) ≠ [] ∧
    (∀ v ∈ (["1-1", "1:1-"] : List String), v ≠ "") ∧
    (¬ ∀ v ∈ (["1-1", "1:1-"] : List String),
      pyFloatChars (stripCommas (pyStrip v.toList)) = true) ∧
    (∀ v ∈ (["1-1", "1:1-"] : List String),
      v.toList.contains '-' = true ∨ v.toList.contains '/' = true) ∧
    (¬ ∀ v ∈ (["1-1", "1:1-"] : List String), v.toList.contains ':' = true) ∧
    (inferType ["1-1", "1:1-"]).type = "datetime" := by
  decide

/-- Claim C4 as amended: for a non-empty sample list that fails the numeric
test and in which every value contains a dash or slash, the inferred type is
"datetime" exactly when at least one value contains a colon, and "date"
otherwise. -/
theorem claim4_amended (values : List String)
    (h0 : values ≠ [])
    (h2 : ¬ ∀ v ∈ values, pyFloatChars (stripCommas (pyStrip v.toList)) = true)
    (h3 : ∀ v ∈ values, v.toList.contains '-' = true ∨ v.toList.contains '/' = true) :
    (inferType values).type =
      if values.any (fun v => v.toList.contains ':') then "datetime" else "date" := by
  unfold inferType
  rw [if_neg h0]
  have hnum : ¬ ((values.map (fun v => stripCommas (pyStrip v.toList))).filter
      (fun v => pyFloatChars v)).length = values.length := by
    intro hl
    apply h2
    intro v hv
    have hsub := List.filter_sublist
      (p := fun v => pyFloatChars v) (values.map (fun v => stripCommas (pyStrip v.toList)))
    have heq := hsub.eq_of_length (by rw [hl, List.length_map])
    have hall := List.filter_eq_self.mp heq
    exact hall _ (List.mem_map_of_mem _ hv)
  rw [if_neg hnum]
  have hdate : values.all (fun v => v.toList.contains '-' || v.toList.contains '/') = true := by
    rw [List.all_eq_true]
    intro v hv
    rcases h3 v hv with h | h
    · rw [h]
      rfl
    · rw [h, Bool.or_true]
  rw [if_pos hdate]
  by_cases hc : values.any (fun v => v.toList.contains ':') = true
  · rw [if_pos hc, if_pos hc]
  · rw [if_neg hc, if_neg hc]

/-- Witness for the amended C4: a single dash-containing non-numeric value
with no colon infers "date". -/
theorem claim4_amended_witness :
    (inferType ["a-b"]).type = "date" :=
  (claim4_amended ["a-b"] (by decide) (by decide) (by decide)).trans (by decide)

/-- Starting anywhere but the initial state, or on non-empty input, a
successful run of the csv automaton emits at least one record: every state
other than `startRecord` flushes a pending record at end of input, and every
transition out of `startRecord` either emits a record or enters such a
state. -/
theorem runCsv_ok_ne_nil (d : Char) :
    ∀ (l : List Char) (s : CState) (v : List (List String)),
      runCsv d s l = .ok v → (s ≠ .startRecord ∨ l ≠ []) → v ≠ [] := by
  intro l
  induction l with
  | nil =>
    intro s v hok hs
    cases s with
    | startRecord =>
      rcases hs with h | h
      · exact absurd rfl h
      · exact absurd rfl h
    | startField fs => simp only [runCsv, Except.ok.injEq] at hok; subst hok; simp
    | inField fs f => simp only [runCsv, Except.ok.injEq] at hok; subst hok; simp
    | inQuoted fs f => simp only [runCsv, Except.ok.injEq] at hok; subst hok; simp
    | quoteInQuoted fs f => simp only [runCsv, Except.ok.injEq] at hok; subst hok; simp
    | eatCRNL r => simp only [runCsv, Except.ok.injEq] at hok; subst hok; simp
  | cons c rest ih =>
    intro s v hok hs
    cases s <;> simp only [runCsv] at hok <;> split_ifs at hok <;>
      first
        | (rcases hmap : runCsv d CState.startRecord rest with e | v'
           · rw [hmap] at hok; simp [Except.map] at hok
           · rw [hmap] at hok
             simp only [Except.map_ok, Except.ok.injEq] at hok
             subst hok
             simp)
        | exact ih _ _ hok (Or.inl (by intro hcon; cases hcon))
        | simp at hok

/-- Claim C2 as amended: the "No rows parsed" failure of the CSV path occurs
exactly on the empty string — any non-empty content makes the csv reader
produce at least one row (or a parse error with a different message), while a
success result may still carry an empty header list. -/
theorem claim2_amended (content rid : String) (d : Option Char) (pd : Bool) :
    (parseCsvContent content rid d pd).errorMsg = some "No rows parsed" ↔ content = "" := by
  constructor
  · intro h
    by_contra hne
    have hlist : content.toList ≠ [] := by
      intro h0
      exact hne (String.ext h0)
    simp only [parseCsvContent] at h
    rw [if_neg (splitNl_ne_nil _)] at h
    split at h
    · simp only [CsvOutcome.errorMsg, Option.some.injEq] at h
      exact csvErrNe _ h
    · rename_i rows heq
      split at h
      · rename_i hrows
        subst hrows
        exact runCsv_ok_ne_nil _ _ _ _ heq (Or.inr hlist) rfl
      · simp [CsvOutcome.errorMsg] at h
  · intro h
    subst h
    cases d with
    | none => rfl
    | some dd => rfl

/-- Dropping a prefix-predicate over an append stops inside the first part
when the first part contains a violating element. -/
theorem dropWhile_append_ne_nil {p : Char → Bool} (l₁ l₂ : List Char)
    (h : l₁.dropWhile p ≠ []) : (l₁ ++ l₂).dropWhile p = l₁.dropWhile p ++ l₂ := by
  induction l₁ with
  | nil => exact absurd rfl h
  | cons a t ih =>
    by_cases hp : p a
    · simp only [List.dropWhile_cons_of_pos hp] at h
      simp only [List.cons_append, List.dropWhile_cons_of_pos hp]
      exact ih h
    · simp only [List.cons_append, List.dropWhile_cons_of_neg hp]

/-- Taking while a predicate holds, over a list decomposed at its first
violating element, returns exactly the prefix. -/
theorem takeWhile_append_first {p : Char → Bool} (l₁ l₂ : List Char) (x : Char)
    (h : ∀ a ∈ l₁, p a = true) (hx : p x = false) :
    (l₁ ++ x :: l₂).takeWhile p = l₁ := by
  induction l₁ with
  | nil => simp [List.takeWhile_cons, hx]
  | cons a t ih =>
    have ha : p a = true := h a (List.mem_cons_self a t)
    simp only [List.cons_append, List.takeWhile_cons, ha, if_true]
    rw [ih (fun b hb => h b (List.mem_cons_of_mem a hb))]

/-- The first piece of the newline split is the longest newline-free
prefix. -/
theorem splitNl_head (l : List Char) : (splitNl l).headD [] = l.takeWhile notNl := by
  induction l with
  | nil => simp [splitNl, List.takeWhile]
  | cons c rest ih =>
    simp only [splitNl]
    by_cases hc : c = '\n'
    · subst hc
      simp [List.takeWhile_cons, notNl]
    · rw [if_neg hc]
      have hnl : notNl c = true := by simp [notNl, hc]
      cases hsp : splitNl rest with
      | nil => exact absurd hsp (splitNl_ne_nil rest)
      | cons h t =>
        simp only [List.headD_cons]
        rw [List.takeWhile_cons, hnl]
        simp only [if_true]
        rw [← ih, hsp, List.headD_cons]

/-- Any list containing an element splits at the first occurrence of that
element. -/
theorem firstSplit {a : Char} {l : List Char} (h : a ∈ l) :
    ∃ s t, l = s ++ a :: t ∧ a ∉ s := by
  induction l with
  | nil => cases h
  | cons b rest ih =>
    by_cases hb : a = b
    · subst hb
      exact ⟨[], rest, rfl, List.not_mem_nil a⟩
    · have hmem : a ∈ rest := by
        cases List.mem_cons.mp h with
        | inl hh => exact absurd hh hb
        | inr hh => exact hh
      obtain ⟨s, t, hst, hns⟩ := ih hmem
      exact ⟨b :: s, t, by rw [hst, List.cons_append], by
        intro hmem2
        cases List.mem_cons.mp hmem2 with
        | inl hh => exact hb hh
        | inr hh => exact hns hh⟩

/-- The detected delimiter is one of the four candidates, hence never a
newline, carriage return or quote character. -/
theorem detectDelimiter_safe (line : List Char) :
    detectDelimiter line ≠ '\n' ∧ detectDelimiter line ≠ '\r' ∧ detectDelimiter line ≠ '"' := by
  unfold detectDelimiter
  simp only [List.foldl]
  split_ifs <;> exact ⟨by decide, by decide, by decide⟩

/-- The first line of the stripped text is the leading-whitespace-stripped
header line, provided the header line and the remainder each contain a
non-whitespace character (so that neither end of the strip can eat into the
first line). -/
theorem strip_firstLine (u v : List Char) (hu : '\n' ∉ u)
    (hau : ∃ a ∈ u, pyIsSpace a = false) (hav : ∃ a ∈ v, pyIsSpace a = false) :
    (pyStrip (u ++ '\n' :: v)).takeWhile notNl = u.dropWhile pyIsSpace := by
  unfold pyStrip
  have hune : u.dropWhile pyIsSpace ≠ [] := by
    rw [ne_eq, List.dropWhile_eq_nil_iff]
    push_neg
    obtain ⟨a, ha, hpa⟩ := hau
    exact ⟨a, ha, by simp [hpa]⟩
  have hvne : v.reverse.dropWhile pyIsSpace ≠ [] := by
    rw [ne_eq, List.dropWhile_eq_nil_iff]
    push_neg
    obtain ⟨a, ha, hpa⟩ := hav
    exact ⟨a, List.mem_reverse.mpr ha, by simp [hpa]⟩
  rw [dropWhile_append_ne_nil u ('\n' :: v) hune]
  have hrev : (u.dropWhile pyIsSpace ++ '\n' :: v).reverse =
      v.reverse ++ '\n' :: (u.dropWhile pyIsSpace).reverse := by
    simp
  rw [hrev, dropWhile_append_ne_nil v.reverse _ hvne]
  have hrev2 : (v.reverse.dropWhile pyIsSpace ++ '\n' :: (u.dropWhile pyIsSpace).reverse).reverse =
      u.dropWhile pyIsSpace ++ '\n' :: (v.reverse.dropWhile pyIsSpace).reverse := by
    simp
  rw [hrev2]
  apply takeWhile_append_first
  · intro a ha
    have hsub : a ∈ u := (List.dropWhile_sublist (p := pyIsSpace) (l := u)).subset ha
    simp only [notNl, ne_eq, decide_eq_true_eq]
    intro hEq
    exact hu (hEq ▸ hsub)
  · simp [notNl]

/-- Processing one special-character-free line from a mid-record state emits
exactly one record determined by the line and continues from the initial
state: the line contributes the same record whatever follows it. -/
theorem runCsv_lineStates (d : Char) (u : List Char)
    (hu : ∀ ch ∈ u, ch ≠ '\n' ∧ ch ≠ '\r' ∧ ch ≠ '"') :
    (∀ fs, u.length ≤ fieldLimit →
      ∃ R, ∀ rest, runCsv d (.startField fs) (u ++ '\n' :: rest) =
        (fun rs => R :: rs) <$> runCsv d .startRecord rest) ∧
    (∀ fs f, f.length + u.length ≤ fieldLimit →
      ∃ R, ∀ rest, runCsv d (.inField fs f) (u ++ '\n' :: rest) =
        (fun rs => R :: rs) <$> runCsv d .startRecord rest) := by
  induction u with
  | nil =>
    refine ⟨fun fs _ => ⟨fs ++ [""], fun rest => ?_⟩,
            fun fs f _ => ⟨fs ++ [String.mk f], fun rest => ?_⟩⟩
    · simp [runCsv]
    · simp [runCsv]
  | cons a u' ih =>
    have hu' : ∀ ch ∈ u', ch ≠ '\n' ∧ ch ≠ '\r' ∧ ch ≠ '"' :=
      fun ch hch => hu ch (List.mem_cons_of_mem a hch)
    obtain ⟨ha1, ha2, ha3⟩ := hu a (List.mem_cons_self a u')
    obtain ⟨ihSF, ihIF⟩ := ih hu'
    constructor
    · intro fs hlen
      simp only [List.length_cons] at hlen
      by_cases had : a = d
      · obtain ⟨R, hR⟩ := ihSF (fs ++ [""]) (by omega)
        refine ⟨R, fun rest => ?_⟩
        simp only [List.cons_append, runCsv]
        rw [if_neg ha1, if_neg ha2, if_neg ha3, if_pos had]
        exact hR rest
      · obtain ⟨R, hR⟩ := ihIF fs [a]
          (by simp only [List.length_cons, List.length_nil]; omega)
        refine ⟨R, fun rest => ?_⟩
        simp only [List.cons_append, runCsv]
        rw [if_neg ha1, if_neg ha2, if_neg ha3, if_neg had]
        exact hR rest
    · intro fs f hlen
      simp only [List.length_cons] at hlen
      have hfl : ¬ f.length ≥ fieldLimit := by omega
      by_cases had : a = d
      · obtain ⟨R, hR⟩ := ihSF (fs ++ [String.mk f]) (by omega)
        refine ⟨R, fun rest => ?_⟩
        simp only [List.cons_append, runCsv]
        rw [if_neg ha1, if_neg ha2, if_pos had]
        exact hR rest
      · obtain ⟨R, hR⟩ := ihIF fs (f ++ [a])
          (by simp only [List.length_append, List.length_cons, List.length_nil]; omega)
        refine ⟨R, fun rest => ?_⟩
        simp only [List.cons_append, runCsv]
        rw [if_neg ha1, if_neg ha2, if_neg had, if_neg hfl]
        exact hR rest

/-- Processing a special-character-free first line from the initial state
emits one record determined only by the line and the delimiter. -/
theorem runCsv_firstRecord (d : Char) (u : List Char)
    (hu : ∀ ch ∈ u, ch ≠ '\n' ∧ ch ≠ '\r' ∧ ch ≠ '"')
    (hlen : u.length ≤ fieldLimit) :
    ∃ R, ∀ rest, runCsv d .startRecord (u ++ '\n' :: rest) =
      (fun rs => R :: rs) <$> runCsv d .startRecord rest := by
  cases u with
  | nil =>
    refine ⟨[], fun rest => ?_⟩
    simp [runCsv]
  | cons a u' =>
    have hu' : ∀ ch ∈ u', ch ≠ '\n' ∧ ch ≠ '\r' ∧ ch ≠ '"' :=
      fun ch hch => hu ch (List.mem_cons_of_mem a hch)
    obtain ⟨ha1, ha2, ha3⟩ := hu a (List.mem_cons_self a u')
    obtain ⟨ihSF, ihIF⟩ := runCsv_lineStates d u' hu'
    simp only [List.length_cons] at hlen
    by_cases had : a = d
    · obtain ⟨R, hR⟩ := ihSF [""] (by omega)
      refine ⟨R, fun rest => ?_⟩
      simp only [List.cons_append, runCsv]
      rw [if_neg ha1, if_neg ha2, if_neg ha3, if_pos had]
      exact hR rest
    · obtain ⟨R, hR⟩ := ihIF [] [a]
        (by simp only [List.length_cons, List.length_nil]; omega)
      refine ⟨R, fun rest => ?_⟩
      simp only [List.cons_append, runCsv]
      rw [if_neg ha1, if_neg ha2, if_neg ha3, if_neg had]
      exact hR rest

/-- On input free of carriage returns and quotes the automaton never errors
from any of the unquoted states. -/
theorem runCsv_noSpecial_ok (d : Char) :
    ∀ (l : List Char), (∀ ch ∈ l, ch ≠ '\r' ∧ ch ≠ '"') → l.length ≤ fieldLimit →
    (∃ v, runCsv d .startRecord l = .ok v) ∧
    (∀ fs, ∃ v, runCsv d (.startField fs) l = .ok v) ∧
    (∀ fs f, f.length + l.length ≤ fieldLimit →
      ∃ v, runCsv d (.inField fs f) l = .ok v) := by
  intro l
  induction l with
  | nil =>
    intro _ _
    exact ⟨⟨[], rfl⟩, fun fs => ⟨[fs ++ [""]], rfl⟩,
      fun fs f _ => ⟨[fs ++ [String.mk f]], rfl⟩⟩
  | cons a l' ih =>
    intro hl hlen
    simp only [List.length_cons] at hlen
    have hl' : ∀ ch ∈ l', ch ≠ '\r' ∧ ch ≠ '"' :=
      fun ch hch => hl ch (List.mem_cons_of_mem a hch)
    obtain ⟨ha2, ha3⟩ := hl a (List.mem_cons_self a l')
    obtain ⟨ihSR, ihSF, ihIF⟩ := ih hl' (by omega)
    obtain ⟨v0, hv0⟩ := ihSR
    refine ⟨?_, ?_, ?_⟩
    · by_cases ha1 : a = '\n'
      · subst ha1
        refine ⟨[] :: v0, ?_⟩
        simp [runCsv, hv0]
      · by_cases had : a = d
        · obtain ⟨v, hv⟩ := ihSF [""]
          refine ⟨v, ?_⟩
          simp only [runCsv]
          rw [if_neg ha1, if_neg ha2, if_neg ha3, if_pos had]
          exact hv
        · obtain ⟨v, hv⟩ := ihIF [] [a]
            (by simp only [List.length_cons, List.length_nil]; omega)
          refine ⟨v, ?_⟩
          simp only [runCsv]
          rw [if_neg ha1, if_neg ha2, if_neg ha3, if_neg had]
          exact hv
    · intro fs
      by_cases ha1 : a = '\n'
      · subst ha1
        refine ⟨(fs ++ [""]) :: v0, ?_⟩
        simp [runCsv, hv0]
      · by_cases had : a = d
        · obtain ⟨v, hv⟩ := ihSF (fs ++ [""])
          refine ⟨v, ?_⟩
          simp only [runCsv]
          rw [if_neg ha1, if_neg ha2, if_neg ha3, if_pos had]
          exact hv
        · obtain ⟨v, hv⟩ := ihIF fs [a]
            (by simp only [List.length_cons, List.length_nil]; omega)
          refine ⟨v, ?_⟩
          simp only [runCsv]
          rw [if_neg ha1, if_neg ha2, if_neg ha3, if_neg had]
          exact hv
    · intro fs f hflen
      simp only [List.length_cons] at hflen
      have hfl : ¬ f.length ≥ fieldLimit := by omega
      by_cases ha1 : a = '\n'
      · subst ha1
        refine ⟨(fs ++ [String.mk f]) :: v0, ?_⟩
        simp [runCsv, hv0]
      · by_cases had : a = d
        · obtain ⟨v, hv⟩ := ihSF (fs ++ [String.mk f])
          refine ⟨v, ?_⟩
          simp only [runCsv]
          rw [if_neg ha1, if_neg ha2, if_pos had]
          exact hv
        · obtain ⟨v, hv⟩ := ihIF fs (f ++ [a])
            (by simp only [List.length_append, List.length_cons, List.length_nil]; omega)
          refine ⟨v, ?_⟩
          simp only [runCsv]
          rw [if_neg ha1, if_neg ha2, if_neg had, if_neg hfl]
          exact hv

/-- Evaluation of the CSV path when the auto-detected delimiter and the
parsed rows are known: the result is a success carrying that delimiter and
the first row as headers. -/
theorem parse_accessors (content rid : String) (pd : Bool) (dl : Char)
    (R : List String) (v : List (List String))
    (hline : detectDelimiter ((splitNl (pyStrip content.toList)).headD []) = dl)
    (hparse : pyCsvParse dl content.toList = .ok (R :: v)) :
    (parseCsvContent content rid none pd).success = true ∧
    (parseCsvContent content rid none pd).delimiterOut = some dl ∧
    (parseCsvContent content rid none pd).headersOut = R := by
  simp only [parseCsvContent]
  rw [if_neg (splitNl_ne_nil _)]
  rw [hline, hparse]
  simp [CsvOutcome.success, CsvOutcome.delimiterOut, CsvOutcome.headersOut]

/-- Claim C9 as amended: for quote-free, CR-free content no longer than the
csv field-size limit (fetched CSV content is at most 8192 characters, far
below it), any prefix that contains at least two full lines, where the
header line has a non-whitespace character and the prefix has a
non-whitespace character after the first newline, yields the same detected
delimiter and the same header list as the full content. -/
theorem claim9_amended (c : String) (m : Nat) (pdp pdc : Bool) (rid : String)
    (hq : ∀ ch ∈ c.toList, ch ≠ '"' ∧ ch ≠ '\r')
    (hsize : c.toList.length ≤ fieldLimit)
    (hnl : 2 ≤ (c.toList.take m).count '\n')
    (hhdr : ∃ ch ∈ c.toList.takeWhile notNl, pyIsSpace ch = false)
    (htail : ∃ ch ∈ (c.toList.take m).drop ((c.toList.takeWhile notNl).length + 1),
      pyIsSpace ch = false) :
    (parseCsvContent (String.mk (c.toList.take m)) rid none pdp).success = true ∧
    (parseCsvContent c rid none pdc).success = true ∧
    (parseCsvContent (String.mk (c.toList.take m)) rid none pdp).delimiterOut =
      (parseCsvContent c rid none pdc).delimiterOut ∧
    (parseCsvContent (String.mk (c.toList.take m)) rid none pdp).headersOut =
      (parseCsvContent c rid none pdc).headersOut := by
  have hmemnl : '\n' ∈ c.toList.take m := by
    by_contra hmem
    have h0 : (c.toList.take m).count '\n' = 0 := List.count_eq_zero_of_not_mem hmem
    omega
  obtain ⟨u, w', hPdec, hnotin⟩ := firstSplit hmemnl
  have hLdec : c.toList = u ++ '\n' :: (w' ++ c.toList.drop m) := by
    conv_lhs => rw [← List.take_append_drop m c.toList]
    rw [hPdec]
    simp
  have hup : ∀ a ∈ u, notNl a = true := by
    intro a ha
    simp only [notNl, ne_eq, decide_eq_true_eq]
    intro hEq
    exact hnotin (hEq ▸ ha)
  have hnlfalse : notNl '\n' = false := by simp [notNl]
  have htwP : (c.toList.take m).takeWhile notNl = u := by
    rw [hPdec]
    exact takeWhile_append_first u w' '\n' hup hnlfalse
  have htwL : c.toList.takeWhile notNl = u := by
    conv_lhs => rw [hLdec]
    exact takeWhile_append_first u _ '\n' hup hnlfalse
  have hdropP : (c.toList.take m).drop ((c.toList.takeWhile notNl).length + 1) = w' := by
    rw [htwL, hPdec]
    rw [show u.length + 1 = (u ++ ['\n']).length by simp]
    rw [show u ++ '\n' :: w' = (u ++ ['\n']) ++ w' by simp]
    exact List.drop_left (u ++ ['\n']) w'
  rw [htwL] at hhdr
  rw [hdropP] at htail
  have havw : ∃ a ∈ w' ++ c.toList.drop m, pyIsSpace a = false := by
    obtain ⟨a, ha, hpa⟩ := htail
    exact ⟨a, List.mem_append_left _ ha, hpa⟩
  -- first line after strip is the same for the prefix and the full content
  have hlineP : (splitNl (pyStrip (c.toList.take m))).headD [] = u.dropWhile pyIsSpace := by
    rw [splitNl_head, hPdec]
    exact strip_firstLine u w' hnotin hhdr htail
  have hlineL : (splitNl (pyStrip c.toList)).headD [] = u.dropWhile pyIsSpace := by
    rw [splitNl_head]
    conv_lhs => rw [hLdec]
    exact strip_firstLine u _ hnotin hhdr havw
  -- the common detected delimiter
  have hu3 : ∀ ch ∈ u, ch ≠ '\n' ∧ ch ≠ '\r' ∧ ch ≠ '"' := by
    intro ch hch
    have hchL : ch ∈ c.toList := by
      rw [hLdec]
      exact List.mem_append_left _ hch
    obtain ⟨hq1, hq2⟩ := hq ch hchL
    refine ⟨?_, hq2, hq1⟩
    have := hup ch hch
    simp only [notNl, ne_eq, decide_eq_true_eq] at this
    exact this
  have hlens : u.length + (1 + (w'.length + (c.toList.drop m).length)) ≤ fieldLimit := by
    have hlen := congrArg List.length hLdec
    simp only [List.length_append, List.length_cons] at hlen
    omega
  obtain ⟨R, hR⟩ := runCsv_firstRecord (detectDelimiter (u.dropWhile pyIsSpace)) u hu3
    (by omega)
  have hw'spec : ∀ ch ∈ w', ch ≠ '\r' ∧ ch ≠ '"' := by
    intro ch hch
    have hchL : ch ∈ c.toList := by
      rw [hLdec]
      exact List.mem_append_right _ (List.mem_cons_of_mem _ (List.mem_append_left _ hch))
    obtain ⟨hq1, hq2⟩ := hq ch hchL
    exact ⟨hq2, hq1⟩
  have hwspec : ∀ ch ∈ w' ++ c.toList.drop m, ch ≠ '\r' ∧ ch ≠ '"' := by
    intro ch hch
    have hchL : ch ∈ c.toList := by
      rw [hLdec]
      exact List.mem_append_right _ (List.mem_cons_of_mem _ hch)
    obtain ⟨hq1, hq2⟩ := hq ch hchL
    exact ⟨hq2, hq1⟩
  obtain ⟨v1, hv1⟩ := (runCsv_noSpecial_ok (detectDelimiter (u.dropWhile pyIsSpace)) w'
    hw'spec (by omega)).1
  obtain ⟨v2, hv2⟩ :=
    (runCsv_noSpecial_ok (detectDelimiter (u.dropWhile pyIsSpace)) (w' ++ c.toList.drop m)
      hwspec (by simp only [List.length_append]; omega)).1
  have hparseP : pyCsvParse (detectDelimiter (u.dropWhile pyIsSpace)) (c.toList.take m) =
      .ok (R :: v1) := by
    rw [hPdec]
    unfold pyCsvParse
    rw [hR w', hv1]
    rfl
  have hparseL : pyCsvParse (detectDelimiter (u.dropWhile pyIsSpace)) c.toList = .ok (R :: v2) := by
    conv_lhs => rw [hLdec]
    unfold pyCsvParse
    rw [hR _, hv2]
    rfl
  have htoList : (String.mk (c.toList.take m)).toList = c.toList.take m := rfl
  obtain ⟨hs1, hd1, hh1⟩ := parse_accessors (String.mk (c.toList.take m)) rid pdp
    (detectDelimiter (u.dropWhile pyIsSpace)) R v1 (by rw [htoList, hlineP]) (by rw [htoList]; exact hparseP)
  obtain ⟨hs2, hd2, hh2⟩ := parse_accessors c rid pdc
    (detectDelimiter (u.dropWhile pyIsSpace)) R v2 (by rw [hlineL]) hparseL
  exact ⟨hs1, hs2, by rw [hd1, hd2], by rw [hh1, hh2]⟩

/-- Claim C9, counterexample: for content "a,b\t\t\n \nz" and its 8-character
prefix (which contains the full header line "a,b\t\t" and the full sample
line " "), detection on the prefix picks comma while detection on the full
content picks tab, and the header lists differ — because `content.strip()`
eats the trailing tabs of the header line when everything after it is
whitespace. -/
theorem claim9_counterexample :
    "a,b\t\t\n \n".toList = "a,b\t\t\n \nz".toList.take 8 ∧
    ("a,b\t\t\n \n".toList.count '\n' = 2) ∧
    ((parseCsvContent "a,b\t\t\n \n" "r9" none true).delimiterOut ≠
      (parseCsvContent "a,b\t\t\n \nz" "r9" none false).delimiterOut) ∧
    ((parseCsvContent "a,b\t\t\n \n" "r9" none true).headersOut ≠
      (parseCsvContent "a,b\t\t\n \nz" "r9" none false).headersOut) := by
  decide

/-- Witness for the amended C9: the 9-character prefix of "a,b\nc,d\ne,f"
(cutting mid third line) detects the same delimiter and headers. -/
theorem claim9_amended_witness :
    (parseCsvContent (String.mk ("a,b\nc,d\ne,f".toList.take 9)) "w9" none true).success = true ∧
    (parseCsvContent "a,b\nc,d\ne,f" "w9" none false).success = true ∧
    (parseCsvContent (String.mk ("a,b\nc,d\ne,f".toList.take 9)) "w9" none true).delimiterOut =
      (parseCsvContent "a,b\nc,d\ne,f" "w9" none false).delimiterOut ∧
    (parseCsvContent (String.mk ("a,b\nc,d\ne,f".toList.take 9)) "w9" none true).headersOut =
      (parseCsvContent "a,b\nc,d\ne,f" "w9" none false).headersOut :=
  claim9_amended "a,b\nc,d\ne,f" 9 true false "w9" (by decide) (by decide) (by decide)
    (by decide) (by decide)
